import Mathlib

/-!
# look_around: `routes/auth.go`

A shallow embedding of the three HTTP handlers of `src/routes/auth.go`
(`login`, `register`, the `authenticate` middleware) and of `checkPassword`.

* A Go string is modelled by the sequence of its Unicode code points,
  `GoString := List Char`, that is, as a well-formed UTF-8 text.  The literals
  of the source are ASCII, so `len("Bearer ")` is 7 in both readings, and
  request fields produced by gin's JSON binding are always well-formed UTF-8.
* Every handler is a function from its inputs to the ordered list of the
  effects it performs (`Event`): log lines, calls into collaborators, and
  writes on the `gin.Context`.  "X is never called" is "no X event in the
  trace"; the response seen by the HTTP caller is obtained by replaying the
  context writes of the trace (`respond`).
* Code that is not in `auth.go` (the `repo`, `token`, `bcrypt`, `uuid`
  packages, `repo.Salt`, the clock) is taken as a parameter, bundled in `Deps`.
  The result of `ctx.ShouldBindJSON` is the handler's input: `none` when
  binding failed, `some req` when it succeeded.
-/

namespace LookAround

/-! ## Strings and errors -/

/-- A Go `string`: a finite sequence of code points. -/
abbrev GoString := List Char

/-- The value of a string literal of the source. -/
def lit (s : String) : GoString := s.data

/-- Go `strings.HasPrefix(s, prefix)`:
`len(s) >= len(prefix) && s[:len(prefix)] == prefix`. -/
def HasPrefix (s pre : GoString) : Bool :=
  decide (pre.length ≤ s.length) && (s.take pre.length == pre)

/-- Go `strings.TrimPrefix(s, prefix)`: `s[len(prefix):]` when `s` has the
prefix, `s` unchanged otherwise. -/
def TrimPrefix (s pre : GoString) : GoString :=
  if HasPrefix s pre then s.drop pre.length else s

/-- A Go `error` value: the text of `err.Error()` and whether the value is the
sentinel `token.ErrJWTExpired` (what `err == token.ErrJWTExpired` tests). -/
structure GoError where
  Error : GoString
  isErrJWTExpired : Bool
  deriving DecidableEq

/-- Go `errors.New(msg)`: a fresh error, never identical to a sentinel. -/
def errorsNew (msg : GoString) : GoError := ⟨msg, false⟩

/-! ## Data model -/

/-- The fields of `model.User` that `auth.go` reads or writes.  `ID` holds the
text `user.ID.String()`. -/
structure User where
  ID : GoString
  UserName : GoString
  Password : GoString
  Gender : GoString
  Age : Int
  Email : GoString
  Phone : GoString
  Address : GoString
  deriving DecidableEq

/-- The claims returned by `token.ParseJWT`; `auth.go` reads `UserID`. -/
structure UserClaims where
  UserID : GoString
  UserName : GoString
  ExpiresAt : Int
  deriving DecidableEq

/-- Source type `loginReq` (auth.go:36-39). -/
structure loginReq where
  Username : GoString
  Password : GoString
  deriving DecidableEq

/-- Source type `signUpReq` (auth.go:86-94). -/
structure signUpReq where
  Username : GoString
  Password : GoString
  Gender : GoString
  Age : Int
  Email : GoString
  Phone : GoString
  Address : GoString
  deriving DecidableEq

/-! ## Time -/

/-- A `time.Time` instant, as nanoseconds elapsed since the Unix epoch. -/
abbrev Time := Int

/-- A `time.Duration`: a count of nanoseconds. -/
abbrev Duration := Int

/-- Constant `time.Hour` `= 60 * 60 * 10^9` nanoseconds. -/
def Hour : Duration := 60 * (60 * (1000 * (1000 * (1000 * 1))))

/-- Go `t.Add(d)`. -/
def Time.Add (t : Time) (d : Duration) : Time := t + d

/-- Go `t.Unix()`: whole seconds elapsed since the epoch (rounded down). -/
def Time.Unix (t : Time) : Int := t / 1000000000

/-- Source constant `jwtExpPeriod = 7 * 24 * time.Hour` (auth.go:34). -/
def jwtExpPeriod : Duration := 7 * 24 * Hour

/-! ## Effects -/

/-- The zap log levels used by the source. -/
inductive Level
  | Warn
  | Info
  | Error
  deriving DecidableEq

/-- A structured zap field: `zap.String(key, val)` or `zap.Error(err)`. -/
inductive Field
  | String (key val : GoString)
  | Error (err : GoError)
  deriving DecidableEq

/-- A `gin.H` body with string values, as key/value pairs. -/
abbrev GinH := List (GoString × GoString)

/-- One effect of a handler: a log line, a call into a collaborator, or a
write on the `gin.Context`. -/
inductive Event
  | Log (level : Level) (msg : GoString) (fields : List Field)
  | AbortWithStatus (code : Nat)
  | JSON (code : Nat) (body : GinH)
  | CompareHashAndPassword (hashedPassword password : GoString)
  | SelectUserByUsername (username : GoString)
  | GenJWT (userID userName : GoString) (expiresAt : Int)
  | ParseJWT (tokenStr : GoString)
  | UuidParse (s : GoString)
  | InsertUser (user : User)
  deriving DecidableEq

/-- What the HTTP caller and the rest of the gin pipeline observe of a
`gin.Context` after a handler ran. -/
structure Response where
  aborted : Bool
  status : Option Nat
  body : Option GinH
  deriving DecidableEq

/-- The context before a handler touched it: not aborted, nothing written. -/
def Response.untouched : Response := ⟨false, none, none⟩

/-- Effect of one event on the context: `AbortWithStatus(code)` writes the
status and aborts the pipeline, `JSON(code, obj)` writes status and body and
does not abort; all other events leave the context alone. -/
def Response.step (r : Response) : Event → Response
  | .AbortWithStatus code => { r with aborted := true, status := some code }
  | .JSON code body => { r with status := some code, body := some body }
  | _ => r

/-- The context after replaying a trace from the untouched context. -/
def respond (trace : List Event) : Response :=
  trace.foldl Response.step Response.untouched

/-- Constant `http.StatusOK`. -/
def StatusOK : Nat := 200

/-- Constant `http.StatusBadRequest`. -/
def StatusBadRequest : Nat := 400

/-- Constant `http.StatusUnauthorized`. -/
def StatusUnauthorized : Nat := 401

/-- Constant `http.StatusInternalServerError`. -/
def StatusInternalServerError : Nat := 500

/-- The response of `ctx.AbortWithStatus(http.StatusUnauthorized)`: pipeline
aborted, status 401, no body. -/
def Response.unauthorized : Response := ⟨true, some StatusUnauthorized, none⟩

/-! ## Collaborators -/

/-- Everything `auth.go` uses that is defined elsewhere. -/
structure Deps where
  /-- Package variable `repo.Salt`. -/
  Salt : GoString
  /-- Library call `bcrypt.CompareHashAndPassword(hash, password)`; `none` is `nil`. -/
  CompareHashAndPassword : GoString → GoString → Option GoError
  /-- Repository call `repo.SelectUserByUsername(username)`. -/
  SelectUserByUsername : GoString → Except GoError User
  /-- Repository call `repo.InsertUser(user)`; `none` is `nil`. -/
  InsertUser : User → Option GoError
  /-- Token call `token.GenJWT(userID, userName, expiresAt)`. -/
  GenJWT : GoString → GoString → Int → Except GoError GoString
  /-- Token call `token.ParseJWT(tokenStr)`. -/
  ParseJWT : GoString → Except GoError UserClaims
  /-- Library call `uuid.Parse(s)`: `none` is success, `some e` the error. -/
  UuidParse : GoString → Option GoError
  /-- The value of `time.Now()` during the call. -/
  Now : Time

/-! ## `checkPassword` -/

/-- The `EmptyInput` failure: the error built at auth.go:78. -/
def EmptyInput : GoError := errorsNew (lit "given password(s) is empty")

/-- Source function `checkPassword` (auth.go:76-84).  Returns the calls it
made and its `error` result (`none` is `nil`). -/
def checkPassword (d : Deps) (storedPassword loginPassword : GoString) :
    List Event × Option GoError :=
  if storedPassword = [] ∨ loginPassword = [] then
    ([], some (errorsNew (lit "given password(s) is empty")))
  else
    let passwordBuf := loginPassword ++ d.Salt
    ([.CompareHashAndPassword storedPassword passwordBuf],
      d.CompareHashAndPassword storedPassword passwordBuf)

/-! ## `login` -/

/-- Source method `login` (auth.go:41-74). -/
def login (d : Deps) (bind : Option loginReq) : List Event :=
  match bind with
  | none =>
    [.Log .Warn (lit "Warn: invalid request body") [],
     .AbortWithStatus StatusBadRequest]
  | some req =>
    match d.SelectUserByUsername req.Username with
    | .error _ =>
      [.SelectUserByUsername req.Username,
       .Log .Warn (lit "Warn: user not found") [],
       .AbortWithStatus StatusUnauthorized]
    | .ok user =>
      let chk := checkPassword d user.Password req.Password
      match chk.2 with
      | some _ =>
        [.SelectUserByUsername req.Username] ++ chk.1 ++
        [.Log .Warn (lit "Warn: invalid password") [],
         .AbortWithStatus StatusUnauthorized]
      | none =>
        let expiresAt := Time.Unix (Time.Add d.Now jwtExpPeriod)
        match d.GenJWT user.ID user.UserName expiresAt with
        | .error err =>
          [.SelectUserByUsername req.Username] ++ chk.1 ++
          [.GenJWT user.ID user.UserName expiresAt,
           .Log .Error (lit "failed to sign jwt")
             [.String (lit "user") req.Username, .Error err],
           .JSON StatusInternalServerError
             [(lit "error", lit "token generation failed")]]
        | .ok signedToken =>
          [.SelectUserByUsername req.Username] ++ chk.1 ++
          [.GenJWT user.ID user.UserName expiresAt,
           .JSON StatusOK [(lit "token", signedToken)]]

/-! ## `authenticate` -/

/-- The trace of the branch at auth.go:125-129 (no `"Bearer "` scheme). -/
def MissingScheme : List Event :=
  [.Log .Warn (lit "Warn: invalid token") [], .AbortWithStatus StatusUnauthorized]

/-- The trace of the branch at auth.go:132-136 (empty token). -/
def MissingToken : List Event :=
  [.Log .Warn (lit "WARN: token not found") [], .AbortWithStatus StatusUnauthorized]

/-- The handler returned by source function `authenticate` (auth.go:122-153),
applied to the value of the `Authorization` header (`""` when absent). -/
def authenticate (d : Deps) (auth : GoString) : List Event :=
  let pre := lit "Bearer "
  if !HasPrefix auth pre then
    [.Log .Warn (lit "Warn: invalid token") [], .AbortWithStatus StatusUnauthorized]
  else
    let tokenStr := TrimPrefix auth pre
    if tokenStr = [] then
      [.Log .Warn (lit "WARN: token not found") [], .AbortWithStatus StatusUnauthorized]
    else
      match d.ParseJWT tokenStr with
      | .error err =>
        if err.isErrJWTExpired then
          [.ParseJWT tokenStr,
           .Log .Warn (lit "WARN: token is expire: " ++ tokenStr) [],
           .AbortWithStatus StatusUnauthorized]
        else
          [.ParseJWT tokenStr,
           .Log .Warn (lit "Warn: general error: " ++ err.Error) [],
           .AbortWithStatus StatusUnauthorized]
      | .ok userClaims =>
        match d.UuidParse userClaims.UserID with
        | some err =>
          [.ParseJWT tokenStr,
           .UuidParse userClaims.UserID,
           .Log .Warn (lit "Warn: invalid user id: " ++ userClaims.UserID ++
             lit " " ++ err.Error) [],
           .AbortWithStatus StatusUnauthorized]
        | none =>
          [.ParseJWT tokenStr, .UuidParse userClaims.UserID]

/-! ## `register` -/

/-- Go `strconv` decimal form of an `int`, as `encoding/json` writes it. -/
def formatInt : Int → GoString
  | .ofNat m => Nat.toDigits 10 m
  | .negSucc m => '-' :: Nat.toDigits 10 (m + 1)

/-- The table `hex = "0123456789abcdef"` of `encoding/json`. -/
def hex (n : Nat) : Char := (lit "0123456789abcdef").getD n '0'

/-- The table `htmlSafeSet` of `encoding/json`, for a code point below
`utf8.RuneSelf`: every printable ASCII character (and DEL) except the double
quote, the backslash, and the characters escaped for HTML. -/
def htmlSafeSet (c : Char) : Bool :=
  decide (0x20 ≤ c.toNat) && !(c == '"' || c == '\\' || c == '<' || c == '>' || c == '&')

/-- What `encoding/json` (`appendString` with `escapeHTML`, Go 1.22 and later)
writes for one code point of a string value. -/
def escapeRune (c : Char) : GoString :=
  if c.toNat < 0x80 then
    if htmlSafeSet c then [c]
    else if c = '\\' ∨ c = '"' then ['\\', c]
    else if c = '\x08' then ['\\', 'b']
    else if c = '\x0c' then ['\\', 'f']
    else if c = '\n' then ['\\', 'n']
    else if c = '\r' then ['\\', 'r']
    else if c = '\t' then ['\\', 't']
    else ['\\', 'u', '0', '0', hex (c.toNat / 16), hex (c.toNat % 16)]
  else if c = '\u2028' ∨ c = '\u2029' then
    ['\\', 'u', '2', '0', '2', hex (c.toNat % 16)]
  else [c]

/-- The JSON form of a Go string value: quoted, each code point escaped. -/
def appendString (src : GoString) : GoString :=
  '"' :: (src.flatMap escapeRune ++ ['"'])

/-- Go `json.Marshal(req)` for a `*signUpReq`: the fields in declaration
order under their `json` tags. -/
def Marshal (req : signUpReq) : GoString :=
  lit "\x7b\"username\":" ++ appendString req.Username ++
  lit ",\"password\":" ++ appendString req.Password ++
  lit ",\"gender\":" ++ appendString req.Gender ++
  lit ",\"age\":" ++ formatInt req.Age ++
  lit ",\"email\":" ++ appendString req.Email ++
  lit ",\"phone\":" ++ appendString req.Phone ++
  lit ",\"address\":" ++ appendString req.Address ++ lit "\x7d"

/-- The text of the zero `uuid.UUID`, the `ID` of a `model.User` literal that
does not set it. -/
def uuidNil : GoString := lit "00000000-0000-0000-0000-000000000000"

/-- The `model.User` literal built at auth.go:105-113. -/
def userOfReq (req : signUpReq) : User :=
  { ID := uuidNil
    UserName := req.Username
    Password := req.Password
    Gender := req.Gender
    Age := req.Age
    Email := req.Email
    Phone := req.Phone
    Address := req.Address }

/-- The message of the Info line logged at auth.go:104. -/
def registerInfoMsg (req : signUpReq) : GoString :=
  lit "Info: user req" ++ Marshal req

/-- Source method `register` (auth.go:96-118). -/
def register (d : Deps) (bind : Option signUpReq) : List Event :=
  match bind with
  | none =>
    [.Log .Warn (lit "Warn: invalid request body") [],
     .JSON StatusBadRequest [(lit "error", lit "invalid request body")]]
  | some req =>
    let json := Marshal req
    match d.InsertUser (userOfReq req) with
    | some err =>
      [.Log .Info (lit "Info: user req" ++ json) [],
       .InsertUser (userOfReq req),
       .Log .Error (lit "Error: failed to insert user")
         [.String (lit "user") req.Username, .Error err],
       .JSON StatusBadRequest [(lit "error", lit "failed to insert user")]]
    | none =>
      [.Log .Info (lit "Info: user req" ++ json) [],
       .InsertUser (userOfReq req)]

/-! ## Concrete collaborators used to exercise the model -/

/-- A stand-in for a bcrypt-class hash: tags its input. -/
def demoHash (x : GoString) : GoString := '$' :: x

/-- The comparison that goes with `demoHash`. -/
def demoCompare (h p : GoString) : Option GoError :=
  if h = demoHash p then none else some (errorsNew (lit "mismatch"))

/-- A stored user whose password hash is `demoHash ("secret" ++ "salt")`. -/
def demoUser : User :=
  { ID := lit "123e4567-e89b-12d3-a456-426614174000"
    UserName := lit "alice"
    Password := demoHash (lit "secret" ++ lit "salt")
    Gender := lit "f"
    Age := 30
    Email := lit "a@example.com"
    Phone := lit "555"
    Address := [] }

/-- Collaborators in which everything succeeds for user `alice`. -/
def demoDeps : Deps :=
  { Salt := lit "salt"
    CompareHashAndPassword := demoCompare
    SelectUserByUsername := fun u =>
      if u = lit "alice" then .ok demoUser else .error (errorsNew (lit "not found"))
    InsertUser := fun _ => none
    GenJWT := fun userID _ _ => .ok (lit "jwt." ++ userID)
    ParseJWT := fun t =>
      if t = lit "good" then .ok ⟨demoUser.ID, lit "alice", 0⟩
      else if t = lit "old" then .error ⟨lit "expired", true⟩
      else if t = lit "noid" then .ok ⟨lit "x", lit "alice", 0⟩
      else .error (errorsNew (lit "malformed"))
    UuidParse := fun s =>
      if s.length = 36 then none else some (errorsNew (lit "invalid UUID length"))
    Now := 1700000000123456789 }

/-- The collaborators of `demoDeps` with a signing operation that fails. -/
def demoDepsNoKey : Deps :=
  { demoDeps with GenJWT := fun _ _ _ => .error (errorsNew (lit "no key")) }

/-- The collaborators of `demoDeps` with a store that rejects every insert. -/
def demoDepsNoInsert : Deps :=
  { demoDeps with InsertUser := fun _ => some (errorsNew (lit "duplicate")) }

/-- A valid login request for `demoUser`. -/
def demoLogin : loginReq := ⟨lit "alice", lit "secret"⟩

/-- A registration request. -/
def demoSignUp : signUpReq :=
  { Username := lit "alice"
    Password := lit "secret"
    Gender := lit "f"
    Age := 30
    Email := lit "a@example.com"
    Phone := lit "555"
    Address := [] }

/-- A registration request whose password is `<`. -/
def demoSignUpLt : signUpReq := { demoSignUp with Password := lit "<" }

/-! ## bcrypt key -/

/-- The bytes of a Go string: the UTF-8 encoding of its code points. -/
def utf8 (s : GoString) : List UInt8 := s.flatMap String.utf8EncodeChar

/-- The part of a password that bcrypt reads: the key schedule walks
cyclically over the NUL-terminated password (`ckey = append(key, 0)`) and
consumes 18 words of 4 bytes, that is 72 bytes. -/
def bcryptKey (password : GoString) : List UInt8 :=
  (List.range 72).map fun i =>
    (utf8 password ++ [0]).getD (i % (utf8 password ++ [0]).length) 0

/-- A comparison whose verdict depends on the password only through the
bytes bcrypt reads of it. -/
def KeyDetermined (compare : GoString → GoString → Option GoError) : Prop :=
  ∀ h x y, bcryptKey x = bcryptKey y → compare h x = compare h y

/-- A stand-in for a bcrypt hash that, as bcrypt does, depends on the
password through `bcryptKey` only. -/
def keyHash (x : GoString) : GoString :=
  '$' :: (bcryptKey x).map fun b => Char.ofNat b.toNat

/-- The comparison that goes with `keyHash`. -/
def keyCompare (h p : GoString) : Option GoError :=
  if h = keyHash p then none else some (errorsNew (lit "mismatch"))

/-- The collaborators of `demoDeps` with the comparison `keyCompare`. -/
def demoDepsKey : Deps :=
  { demoDeps with CompareHashAndPassword := keyCompare }

/-- The collaborators of `demoDeps` with an empty `repo.Salt`. -/
def demoDepsNoSalt : Deps :=
  { demoDeps with Salt := [] }

/-! ## Specification vocabulary -/

/-- The argument `time.Now().Add(jwtExpPeriod).Unix()` that `login` passes to
`token.GenJWT` (auth.go:64). -/
def loginExpiresAt (d : Deps) : Int := Time.Unix (Time.Add d.Now jwtExpPeriod)

/-- The login flow rejected the request as unauthorized: the response is the
bare 401 abort and token issuance (`GenJWT`) was not reached. -/
def LoginRejected (d : Deps) (req : loginReq) : Prop :=
  respond (login d (some req)) = Response.unauthorized ∧
  ∀ userID userName expiresAt,
    Event.GenJWT userID userName expiresAt ∉ login d (some req)

/-! ## Reading back JSON escapes

A left inverse of `escapeRune`, used to show that the encoding of a string
value determines the string. -/

/-- Value of a hexadecimal digit of the table `hex`. -/
def hexVal (c : Char) : Nat := (lit "0123456789abcdef").indexOf c

/-- Reads back the first escaped code point of a JSON string body. -/
def unescapeHead : GoString → Option (Char × GoString)
  | [] => none
  | c :: r =>
    if c ≠ '\\' then some (c, r)
    else
      match r with
      | [] => none
      | x :: r1 =>
        if x = 'u' then
          match r1 with
          | a :: _ :: h1 :: h2 :: r2 =>
            if a = '0' then some (Char.ofNat (hexVal h1 * 16 + hexVal h2), r2)
            else some (Char.ofNat (0x2020 + hexVal h2), r2)
          | _ => none
        else if x = 'b' then some ('\x08', r1)
        else if x = 'f' then some ('\x0c', r1)
        else if x = 'n' then some ('\n', r1)
        else if x = 'r' then some ('\r', r1)
        else if x = 't' then some ('\t', r1)
        else some (x, r1)

end LookAround

namespace LookAround

/-! ## Basic facts -/

theorem HasPrefix_iff (s pre : GoString) : HasPrefix s pre = true ↔ pre <+: s := by
  constructor
  · intro h
    simp only [HasPrefix, Bool.and_eq_true, decide_eq_true_eq, beq_iff_eq] at h
    exact List.prefix_iff_eq_take.mpr h.2.symm
  · intro h
    simp only [HasPrefix, Bool.and_eq_true, decide_eq_true_eq, beq_iff_eq]
    exact ⟨h.length_le, (List.prefix_iff_eq_take.mp h).symm⟩

theorem HasPrefix_append (pre t : GoString) : HasPrefix (pre ++ t) pre = true :=
  (HasPrefix_iff _ _).mpr (List.prefix_append pre t)

theorem TrimPrefix_append (pre t : GoString) : TrimPrefix (pre ++ t) pre = t := by
  simp [TrimPrefix, HasPrefix_append]

theorem checkPassword_of_empty (d : Deps) (h p : GoString) (he : h = [] ∨ p = []) :
    checkPassword d h p = ([], some EmptyInput) := by
  simp [checkPassword, he, EmptyInput]

theorem checkPassword_of_nonempty (d : Deps) (h p : GoString) (hh : h ≠ []) (hp : p ≠ []) :
    checkPassword d h p =
      ([.CompareHashAndPassword h (p ++ d.Salt)], d.CompareHashAndPassword h (p ++ d.Salt)) := by
  simp [checkPassword, hh, hp]

/-! ## `checkPassword` -/

/-- C1: whenever the stored hash or the supplied password is empty,
`checkPassword` returns the `EmptyInput` error (never `nil`) and makes no call
at all, in particular none to the bcrypt comparison. -/
theorem checkPassword_empty_input (d : Deps) (h p : GoString) (he : h = [] ∨ p = []) :
    (checkPassword d h p).2 = some EmptyInput ∧
    (checkPassword d h p).2 ≠ none ∧
    (checkPassword d h p).1 = [] ∧
    ∀ x y, Event.CompareHashAndPassword x y ∉ (checkPassword d h p).1 := by
  rw [checkPassword_of_empty d h p he]
  simp

/-- Witness for C1: an empty stored hash with the password `"secret"`. -/
theorem checkPassword_empty_input_witness :
    (([] : GoString) = [] ∨ lit "secret" = []) ∧
    (checkPassword demoDeps [] (lit "secret")).2 = some EmptyInput ∧
    (checkPassword demoDeps [] (lit "secret")).2 ≠ none ∧
    (checkPassword demoDeps [] (lit "secret")).1 = [] ∧
    ∀ x y, Event.CompareHashAndPassword x y ∉ (checkPassword demoDeps [] (lit "secret")).1 :=
  ⟨Or.inl rfl, checkPassword_empty_input demoDeps [] (lit "secret") (Or.inl rfl)⟩

theorem getD_double (w : List UInt8) (hw : 0 < w.length) (i : Nat) :
    (w ++ w).getD (i % (w ++ w).length) 0 = w.getD (i % w.length) 0 := by
  have hlen : (w ++ w).length = w.length * 2 := by rw [List.length_append]; omega
  have hlt : i % (w.length * 2) < w.length * 2 := Nat.mod_lt _ (by omega)
  have hmod : i % (w.length * 2) % w.length = i % w.length := Nat.mod_mul_right_mod i _ 2
  rw [hlen, ← hmod]
  generalize i % (w.length * 2) = j at hlt
  by_cases hj : j < w.length
  · rw [List.getD_append _ _ _ _ hj, Nat.mod_eq_of_lt hj]
  · have hge : w.length ≤ j := Nat.le_of_not_lt hj
    have hsub : j % w.length = j - w.length := by
      rw [Nat.mod_eq_sub_mod hge, Nat.mod_eq_of_lt (by omega)]
    rw [List.getD_append_right _ _ _ _ hge, hsub]

theorem bcryptKey_repeat (x : GoString) :
    bcryptKey (x ++ ['\x00'] ++ x) = bcryptKey x := by
  have hu : utf8 (x ++ ['\x00'] ++ x) ++ [0] = (utf8 x ++ [0]) ++ (utf8 x ++ [0]) := by
    have h0 : String.utf8EncodeChar '\x00' = [0] := by decide
    simp only [utf8, List.flatMap_append, List.flatMap_cons, List.flatMap_nil, h0,
      List.append_nil, List.append_assoc]
  unfold bcryptKey
  rw [hu]
  refine List.map_congr_left fun i _ => ?_
  exact getD_double (utf8 x ++ [0]) (by simp) i

theorem keyCompare_keyDetermined : KeyDetermined keyCompare := by
  intro h x y hxy
  simp only [keyCompare, keyHash, hxy]

/-- C2, as stated, fails: the stored hash `demoHash ("" ++ Salt)` is accepted
by the comparison for the input `"" ++ Salt` it was derived from, but for the
empty password `P = ""`, `checkPassword(hash(P+S), P)` does not succeed: it
returns `EmptyInput`. -/
theorem checkPassword_roundtrip_empty_password_fails :
    demoDeps.CompareHashAndPassword (demoHash ([] ++ demoDeps.Salt)) ([] ++ demoDeps.Salt) = none ∧
    (checkPassword demoDeps (demoHash ([] ++ demoDeps.Salt)) []).2 = some EmptyInput ∧
    (checkPassword demoDeps (demoHash ([] ++ demoDeps.Salt)) []).2 ≠ none :=
  ⟨by decide, by decide, by decide⟩

/-- C2, amended: let `h` be a non-empty stored hash that the bcrypt
comparison accepts for `P ++ Salt` (as `hash(P+S)` is) with `P` non-empty.
Then `checkPassword(h, P)` succeeds; `checkPassword(h, "")` fails with
`EmptyInput`; for a non-empty `P'` the result is exactly the comparison's
verdict on `P' ++ Salt`, which differs from `P ++ Salt` when `P' ≠ P`; and
that verdict is not always a failure: a comparison that reads a password
through `bcryptKey` only accepts `P' = P ++ Salt ++ NUL ++ P`, which is not
`P`. -/
theorem checkPassword_accepted_hash (d : Deps) (h P : GoString)
    (hh : h ≠ []) (hP : P ≠ [])
    (hacc : d.CompareHashAndPassword h (P ++ d.Salt) = none) :
    (checkPassword d h P).2 = none ∧
    (checkPassword d h []).2 = some EmptyInput ∧
    (∀ Q, Q ≠ [] → (checkPassword d h Q).2 = d.CompareHashAndPassword h (Q ++ d.Salt)) ∧
    (∀ Q, Q ≠ P → Q ++ d.Salt ≠ P ++ d.Salt) ∧
    (∀ Q, Q ≠ P → d.CompareHashAndPassword h (Q ++ d.Salt) ≠ none →
      (checkPassword d h Q).2 ≠ none) ∧
    (KeyDetermined d.CompareHashAndPassword →
      P ++ d.Salt ++ ['\x00'] ++ P ≠ P ∧
      (checkPassword d h (P ++ d.Salt ++ ['\x00'] ++ P)).2 = none) := by
  have hres : ∀ Q, Q ≠ [] →
      (checkPassword d h Q).2 = d.CompareHashAndPassword h (Q ++ d.Salt) := by
    intro Q hQ
    rw [checkPassword_of_nonempty d h Q hh hQ]
  refine ⟨?_, ?_, hres, ?_, ?_, ?_⟩
  · rw [hres P hP]
    exact hacc
  · rw [checkPassword_of_empty d h [] (Or.inr rfl)]
  · intro Q hQ heq
    exact hQ (List.append_cancel_right heq)
  · intro Q _ hrej
    by_cases hQe : Q = []
    · rw [checkPassword_of_empty d h Q (Or.inr hQe)]
      simp
    · rw [hres Q hQe]
      exact hrej
  · intro hkey
    have hne : P ++ d.Salt ++ ['\x00'] ++ P ≠ P := by
      intro heq
      have hl := congrArg List.length heq
      simp only [List.length_append, List.length_singleton] at hl
      omega
    have hne2 : P ++ d.Salt ++ ['\x00'] ++ P ≠ [] := by
      intro heq
      have hl := congrArg List.length heq
      simp only [List.length_append, List.length_singleton, List.length_nil] at hl
      omega
    refine ⟨hne, ?_⟩
    rw [hres _ hne2]
    have hk : bcryptKey (P ++ d.Salt ++ ['\x00'] ++ P ++ d.Salt) = bcryptKey (P ++ d.Salt) := by
      have := bcryptKey_repeat (P ++ d.Salt)
      simpa only [List.append_assoc] using this
    rw [hkey h _ _ hk]
    exact hacc

/-- Witness for C2 (amended): with a comparison that reads the password as
bcrypt does and the stored hash of `"secret" ++ "salt"`, the password
`"secret"` is accepted, and so is `"secretsalt\x00secret"`. -/
theorem checkPassword_accepted_hash_witness :
    (checkPassword demoDepsKey (keyHash (lit "secretsalt")) (lit "secret")).2 = none ∧
    (checkPassword demoDepsKey (keyHash (lit "secretsalt")) []).2 = some EmptyInput ∧
    lit "secret" ++ demoDepsKey.Salt ++ ['\x00'] ++ lit "secret" ≠ lit "secret" ∧
    (checkPassword demoDepsKey (keyHash (lit "secretsalt"))
      (lit "secret" ++ demoDepsKey.Salt ++ ['\x00'] ++ lit "secret")).2 = none :=
  have hw := checkPassword_accepted_hash demoDepsKey (keyHash (lit "secretsalt")) (lit "secret")
    (by simp [keyHash]) (by decide) (by decide)
  ⟨hw.1, hw.2.1, (hw.2.2.2.2.2 keyCompare_keyDetermined).1,
    (hw.2.2.2.2.2 keyCompare_keyDetermined).2⟩

/-- C3, as stated, fails: with an empty `repo.Salt` the non-empty stored hash
of `demoUser` is compared against the non-empty password `"secret"` itself,
the unsalted plaintext. -/
theorem checkPassword_empty_salt_compares_plaintext :
    demoDepsNoSalt.Salt = [] ∧ demoUser.Password ≠ [] ∧ lit "secret" ≠ [] ∧
    (checkPassword demoDepsNoSalt demoUser.Password (lit "secret")).1 =
      [.CompareHashAndPassword demoUser.Password (lit "secret")] ∧
    Event.CompareHashAndPassword demoUser.Password (lit "secret") ∈
      (checkPassword demoDepsNoSalt demoUser.Password (lit "secret")).1 :=
  ⟨rfl, by decide, by decide, by decide, by decide⟩

/-- C3, amended: for a non-empty stored hash `h` and a non-empty password `p`,
`checkPassword` makes exactly one call, the bcrypt comparison of `h` against
`p ++ Salt`, and returns its result unchanged; whenever the salt is
non-empty, no comparison is made against the unsalted `p`. -/
theorem checkPassword_compares_salted (d : Deps) (h p : GoString)
    (hh : h ≠ []) (hp : p ≠ []) :
    (checkPassword d h p).2 = d.CompareHashAndPassword h (p ++ d.Salt) ∧
    (checkPassword d h p).1 = [.CompareHashAndPassword h (p ++ d.Salt)] ∧
    (d.Salt ≠ [] → ∀ x, Event.CompareHashAndPassword x p ∉ (checkPassword d h p).1) := by
  rw [checkPassword_of_nonempty d h p hh hp]
  refine ⟨rfl, rfl, ?_⟩
  intro hs x hx
  simp only [List.mem_singleton, Event.CompareHashAndPassword.injEq] at hx
  exact hs (List.self_eq_append_right.mp hx.2)

/-- Witness for C3 (amended): the stored hash of `demoUser` against
`"secret"` with the salt `"salt"`: one comparison, against `"secretsalt"`,
and none against `"secret"`. -/
theorem checkPassword_compares_salted_witness :
    (checkPassword demoDeps demoUser.Password (lit "secret")).2 =
      demoDeps.CompareHashAndPassword demoUser.Password (lit "secretsalt") ∧
    (checkPassword demoDeps demoUser.Password (lit "secret")).1 =
      [.CompareHashAndPassword demoUser.Password (lit "secretsalt")] ∧
    ∀ x, Event.CompareHashAndPassword x (lit "secret") ∉
      (checkPassword demoDeps demoUser.Password (lit "secret")).1 :=
  ⟨(checkPassword_compares_salted demoDeps demoUser.Password (lit "secret")
      (by decide) (by decide)).1,
   (checkPassword_compares_salted demoDeps demoUser.Password (lit "secret")
      (by decide) (by decide)).2.1,
   (checkPassword_compares_salted demoDeps demoUser.Password (lit "secret")
      (by decide) (by decide)).2.2 (by decide)⟩

/-! ## `authenticate` -/

theorem authenticate_of_no_scheme (d : Deps) (auth : GoString)
    (h : ¬ lit "Bearer " <+: auth) : authenticate d auth = MissingScheme := by
  have hp : HasPrefix auth (lit "Bearer ") = false := by
    cases hb : HasPrefix auth (lit "Bearer ") with
    | false => rfl
    | true => exact absurd ((HasPrefix_iff _ _).mp hb) h
  simp [authenticate, hp, MissingScheme]

theorem authenticate_of_bearer (d : Deps) (t : GoString) (ht : t ≠ []) :
    authenticate d (lit "Bearer " ++ t) =
      match d.ParseJWT t with
      | .error err =>
        if err.isErrJWTExpired then
          [.ParseJWT t, .Log .Warn (lit "WARN: token is expire: " ++ t) [],
           .AbortWithStatus StatusUnauthorized]
        else
          [.ParseJWT t, .Log .Warn (lit "Warn: general error: " ++ err.Error) [],
           .AbortWithStatus StatusUnauthorized]
      | .ok userClaims =>
        match d.UuidParse userClaims.UserID with
        | some err =>
          [.ParseJWT t, .UuidParse userClaims.UserID,
           .Log .Warn (lit "Warn: invalid user id: " ++ userClaims.UserID ++
             lit " " ++ err.Error) [],
           .AbortWithStatus StatusUnauthorized]
        | none => [.ParseJWT t, .UuidParse userClaims.UserID] := by
  simp only [authenticate, HasPrefix_append, TrimPrefix_append, Bool.not_true,
    Bool.false_eq_true, if_false, ht]

theorem respond_authenticate (d : Deps) (auth : GoString) :
    respond (authenticate d auth) = Response.untouched ∨
    respond (authenticate d auth) = Response.unauthorized := by
  unfold authenticate
  simp only []
  split
  · right; rfl
  · split
    · right; rfl
    · split
      · split <;> (right; rfl)
      · split
        · right; rfl
        · left; rfl

/-- C4: a header that does not start with `"Bearer "` (for instance the empty
header, `"bearer x"`, or `"Bearer"` without the space) takes the
`MissingScheme` branch, the header `"Bearer "` takes the `MissingToken`
branch; both abort with status 401 and neither calls `ParseJWT`. -/
theorem authenticate_missing_scheme_or_token (d : Deps) :
    (∀ auth, ¬ lit "Bearer " <+: auth → authenticate d auth = MissingScheme) ∧
    authenticate d [] = MissingScheme ∧
    authenticate d (lit "bearer x") = MissingScheme ∧
    authenticate d (lit "Bearer") = MissingScheme ∧
    authenticate d (lit "Bearer ") = MissingToken ∧
    respond MissingScheme = Response.unauthorized ∧
    respond MissingToken = Response.unauthorized ∧
    (∀ t, Event.ParseJWT t ∉ MissingScheme) ∧
    (∀ t, Event.ParseJWT t ∉ MissingToken) ∧
    MissingScheme ≠ MissingToken := by
  refine ⟨fun auth h => authenticate_of_no_scheme d auth h, ?_, ?_, ?_, ?_, rfl, rfl, ?_, ?_, ?_⟩
  · exact authenticate_of_no_scheme d _ (by decide)
  · exact authenticate_of_no_scheme d _ (by decide)
  · exact authenticate_of_no_scheme d _ (by decide)
  · simp [authenticate, HasPrefix, TrimPrefix, lit, MissingToken]
  · intro t; simp [MissingScheme]
  · intro t; simp [MissingToken]
  · decide

/-- Witness for C4: the header `"Basic abc"` has no `"Bearer "` scheme. -/
theorem authenticate_missing_scheme_or_token_witness :
    ¬ lit "Bearer " <+: lit "Basic abc" ∧
    authenticate demoDeps (lit "Basic abc") = MissingScheme :=
  ⟨by decide, (authenticate_missing_scheme_or_token demoDeps).1 (lit "Basic abc") (by decide)⟩

/-- C5: for a header `"Bearer " ++ t` with `t` non-empty, `ParseJWT` is called
with exactly `t` (the header without its first 7 characters); the request
proceeds (context untouched) if and only if `ParseJWT(t)` succeeds and the
claims' `UserID` passes `uuid.Parse`; in every other case (the expired error,
any other error, a malformed identifier) the gate answers unauthorized. -/
theorem authenticate_bearer_token (d : Deps) (t : GoString) (ht : t ≠ []) :
    (lit "Bearer " ++ t).drop 7 = t ∧
    (∀ s, Event.ParseJWT s ∈ authenticate d (lit "Bearer " ++ t) ↔ s = t) ∧
    (respond (authenticate d (lit "Bearer " ++ t)) = Response.untouched ↔
      ∃ c, d.ParseJWT t = .ok c ∧ d.UuidParse c.UserID = none) ∧
    ((∃ err, d.ParseJWT t = .error err) →
      respond (authenticate d (lit "Bearer " ++ t)) = Response.unauthorized) ∧
    (∀ c err, d.ParseJWT t = .ok c → d.UuidParse c.UserID = some err →
      respond (authenticate d (lit "Bearer " ++ t)) = Response.unauthorized) := by
  rw [authenticate_of_bearer d t ht]
  refine ⟨rfl, ?_, ?_, ?_, ?_⟩
  · intro s
    cases hp : d.ParseJWT t with
    | error err =>
      by_cases he : err.isErrJWTExpired <;> simp [he]
    | ok c =>
      cases hu : d.UuidParse c.UserID <;> simp [hu]
  · cases hp : d.ParseJWT t with
    | error err =>
      by_cases he : err.isErrJWTExpired <;> simp [he, respond, Response.step, Response.untouched]
    | ok c =>
      cases hu : d.UuidParse c.UserID with
      | none =>
        simp only [Except.ok.injEq, exists_eq_left', hu, iff_true]
        rfl
      | some err =>
        simp [hu, respond, Response.step, Response.untouched]
  · rintro ⟨err, he⟩
    rw [he]
    by_cases hx : err.isErrJWTExpired <;> simp only [hx] <;> rfl
  · intro c err hc hu
    rw [hc]
    simp only [hu]
    rfl

/-- Witness for C5: the token `"good"` is let through, the expired token
`"old"` is answered unauthorized. -/
theorem authenticate_bearer_token_witness :
    respond (authenticate demoDeps (lit "Bearer good")) = Response.untouched ∧
    respond (authenticate demoDeps (lit "Bearer old")) = Response.unauthorized :=
  ⟨(authenticate_bearer_token demoDeps (lit "good") (by decide)).2.2.1.mpr
      ⟨⟨demoUser.ID, lit "alice", 0⟩, rfl, by decide⟩,
   (authenticate_bearer_token demoDeps (lit "old") (by decide)).2.2.2.1
      ⟨⟨lit "expired", true⟩, rfl⟩⟩

/-- C6: any two requests rejected by the gate, under any collaborators and
whatever check failed, get the same response: pipeline aborted, status 401,
no body. -/
theorem authenticate_failures_uniform (d₁ d₂ : Deps) (auth₁ auth₂ : GoString)
    (h₁ : respond (authenticate d₁ auth₁) ≠ Response.untouched)
    (h₂ : respond (authenticate d₂ auth₂) ≠ Response.untouched) :
    respond (authenticate d₁ auth₁) = respond (authenticate d₂ auth₂) ∧
    respond (authenticate d₁ auth₁) = ⟨true, some 401, none⟩ := by
  have e₁ := (respond_authenticate d₁ auth₁).resolve_left h₁
  have e₂ := (respond_authenticate d₂ auth₂).resolve_left h₂
  exact ⟨e₁.trans e₂.symm, e₁⟩

/-- Witness for C6: a missing header and a malformed token are answered
identically. -/
theorem authenticate_failures_uniform_witness :
    respond (authenticate demoDeps []) = respond (authenticate demoDeps (lit "Bearer junk")) ∧
    respond (authenticate demoDeps []) = ⟨true, some 401, none⟩ :=
  authenticate_failures_uniform demoDeps demoDeps [] (lit "Bearer junk") (by decide) (by decide)

/-! ## `login` -/

theorem Unix_Add_jwtExpPeriod (t : Time) :
    Time.Unix (Time.Add t jwtExpPeriod) = Time.Unix t + 604800 := by
  have h : jwtExpPeriod = 604800 * 1000000000 := by decide
  unfold Time.Unix Time.Add
  rw [h]
  exact Int.add_mul_ediv_right t 604800 (by decide)

theorem checkPassword_trace (d : Deps) (h p : GoString) :
    (checkPassword d h p).1 = [] ∨
    (checkPassword d h p).1 = [.CompareHashAndPassword h (p ++ d.Salt)] := by
  unfold checkPassword
  split
  · left; rfl
  · right; rfl

theorem login_of_lookup_error (d : Deps) (req : loginReq) (e : GoError)
    (hsel : d.SelectUserByUsername req.Username = .error e) :
    login d (some req) =
      [.SelectUserByUsername req.Username, .Log .Warn (lit "Warn: user not found") [],
       .AbortWithStatus StatusUnauthorized] := by
  simp only [login, hsel]

theorem login_of_check_error (d : Deps) (req : loginReq) (user : User) (e : GoError)
    (hsel : d.SelectUserByUsername req.Username = .ok user)
    (hchk : (checkPassword d user.Password req.Password).2 = some e) :
    login d (some req) =
      [.SelectUserByUsername req.Username] ++
      (checkPassword d user.Password req.Password).1 ++
      [.Log .Warn (lit "Warn: invalid password") [], .AbortWithStatus StatusUnauthorized] := by
  simp only [login, hsel, hchk]

theorem login_of_verified (d : Deps) (req : loginReq) (user : User)
    (hsel : d.SelectUserByUsername req.Username = .ok user)
    (hchk : (checkPassword d user.Password req.Password).2 = none) :
    login d (some req) =
      [.SelectUserByUsername req.Username] ++
      (checkPassword d user.Password req.Password).1 ++
      match d.GenJWT user.ID user.UserName (loginExpiresAt d) with
      | .error err =>
        [.GenJWT user.ID user.UserName (loginExpiresAt d),
         .Log .Error (lit "failed to sign jwt")
           [.String (lit "user") req.Username, .Error err],
         .JSON StatusInternalServerError [(lit "error", lit "token generation failed")]]
      | .ok signedToken =>
        [.GenJWT user.ID user.UserName (loginExpiresAt d),
         .JSON StatusOK [(lit "token", signedToken)]] := by
  simp only [login, hsel, hchk, loginExpiresAt]
  cases d.GenJWT user.ID user.UserName (Time.Unix (Time.Add d.Now jwtExpPeriod)) <;> rfl

theorem loginRejected_of_lookup_error (d : Deps) (req : loginReq) (e : GoError)
    (hsel : d.SelectUserByUsername req.Username = .error e) : LoginRejected d req := by
  unfold LoginRejected
  rw [login_of_lookup_error d req e hsel]
  exact ⟨rfl, by simp⟩

theorem loginRejected_of_check_error (d : Deps) (req : loginReq) (user : User) (e : GoError)
    (hsel : d.SelectUserByUsername req.Username = .ok user)
    (hchk : (checkPassword d user.Password req.Password).2 = some e) :
    LoginRejected d req := by
  unfold LoginRejected
  rw [login_of_check_error d req user e hsel hchk]
  rcases checkPassword_trace d user.Password req.Password with h | h <;> rw [h]
  · exact ⟨rfl, by simp⟩
  · exact ⟨rfl, by simp⟩

/-- C7: the constant `jwtExpPeriod` is 7 days (604800 s, in nanoseconds, within
`int64`); whenever the credentials verify, `login` calls `GenJWT` with
`expiresAt = Unix(now) + 604800`; and every `GenJWT` call `login` ever makes,
for any request, carries that value, which is strictly later than
`Unix(now)`. -/
theorem login_expiresAt (d : Deps) :
    jwtExpPeriod = 604800 * 1000000000 ∧ jwtExpPeriod < 2 ^ 63 ∧
    (∀ req user, d.SelectUserByUsername req.Username = .ok user →
      (checkPassword d user.Password req.Password).2 = none →
      Event.GenJWT user.ID user.UserName (Time.Unix d.Now + 604800) ∈ login d (some req)) ∧
    (∀ bind userID userName expiresAt,
      Event.GenJWT userID userName expiresAt ∈ login d bind →
      expiresAt = Time.Unix d.Now + 604800 ∧ Time.Unix d.Now < expiresAt) := by
  have hexp : loginExpiresAt d = Time.Unix d.Now + 604800 := Unix_Add_jwtExpPeriod d.Now
  refine ⟨by decide, by decide, ?_, ?_⟩
  · intro req user hsel hchk
    rw [login_of_verified d req user hsel hchk, hexp]
    cases d.GenJWT user.ID user.UserName (Time.Unix d.Now + 604800) <;> simp
  · intro bind userID userName expiresAt hmem
    have key : expiresAt = Time.Unix d.Now + 604800 := by
      cases bind with
      | none => simp [login] at hmem
      | some req =>
        cases hsel : d.SelectUserByUsername req.Username with
        | error e =>
          exact absurd hmem ((loginRejected_of_lookup_error d req e hsel).2 _ _ _)
        | ok user =>
          cases hchk : (checkPassword d user.Password req.Password).2 with
          | some e =>
            exact absurd hmem ((loginRejected_of_check_error d req user e hsel hchk).2 _ _ _)
          | none =>
            rw [login_of_verified d req user hsel hchk, hexp] at hmem
            revert hmem
            rcases checkPassword_trace d user.Password req.Password with h | h <;>
              rw [h] <;>
              cases d.GenJWT user.ID user.UserName (Time.Unix d.Now + 604800) <;>
              simp
    exact ⟨key, by rw [key]; omega⟩

/-- Witness for C7: the valid login of `alice` at
`now = 1700000000.123456789 s` issues a token expiring at `1700604800`. -/
theorem login_expiresAt_witness :
    Event.GenJWT demoUser.ID demoUser.UserName 1700604800 ∈ login demoDeps (some demoLogin) :=
  (login_expiresAt demoDeps).2.2.1 demoLogin demoUser rfl (by decide)

theorem respond_login_verified (d : Deps) (req : loginReq) (user : User)
    (hsel : d.SelectUserByUsername req.Username = .ok user)
    (hchk : (checkPassword d user.Password req.Password).2 = none) :
    respond (login d (some req)) =
      match d.GenJWT user.ID user.UserName (loginExpiresAt d) with
      | .error _ =>
        ⟨false, some StatusInternalServerError,
          some [(lit "error", lit "token generation failed")]⟩
      | .ok signedToken => ⟨false, some StatusOK, some [(lit "token", signedToken)]⟩ := by
  rw [login_of_verified d req user hsel hchk]
  rcases checkPassword_trace d user.Password req.Password with h | h <;> rw [h] <;>
    cases d.GenJWT user.ID user.UserName (loginExpiresAt d) <;> rfl

theorem token_not_in_error_body (v : GoString) :
    (lit "token", v) ∉ [(lit "error", lit "token generation failed")] := by
  intro hmem
  simp only [List.mem_singleton, Prod.mk.injEq] at hmem
  exact absurd hmem.1 (by decide)

/-- C8: for a login whose credentials verify, a failing `GenJWT` yields
status 500 with the body `{"error": "token generation failed"}`: not the 401
abort and without a `"token"` field; a succeeding `GenJWT` yields status 200
with the body `{"token": t}` for exactly the string `t` it returned; and any
login response whose body has a `"token"` field comes from a successful
`GenJWT` call and carries its result. -/
theorem login_signing_failure (d : Deps) (req : loginReq) :
    (∀ user err, d.SelectUserByUsername req.Username = .ok user →
      (checkPassword d user.Password req.Password).2 = none →
      d.GenJWT user.ID user.UserName (loginExpiresAt d) = .error err →
      respond (login d (some req)) =
        ⟨false, some 500, some [(lit "error", lit "token generation failed")]⟩ ∧
      respond (login d (some req)) ≠ Response.unauthorized ∧
      ∀ b v, (respond (login d (some req))).body = some b → (lit "token", v) ∉ b) ∧
    (∀ user t, d.SelectUserByUsername req.Username = .ok user →
      (checkPassword d user.Password req.Password).2 = none →
      d.GenJWT user.ID user.UserName (loginExpiresAt d) = .ok t →
      respond (login d (some req)) = ⟨false, some 200, some [(lit "token", t)]⟩) ∧
    (∀ b v, (respond (login d (some req))).body = some b → (lit "token", v) ∈ b →
      ∃ user, d.SelectUserByUsername req.Username = .ok user ∧
        (checkPassword d user.Password req.Password).2 = none ∧
        d.GenJWT user.ID user.UserName (loginExpiresAt d) = .ok v) := by
  refine ⟨?_, ?_, ?_⟩
  · intro user err hsel hchk hgen
    have hr := respond_login_verified d req user hsel hchk
    rw [hgen] at hr
    rw [hr]
    refine ⟨rfl, by simp [Response.unauthorized], ?_⟩
    intro b v hb
    simp only [Option.some.injEq] at hb
    subst hb
    exact token_not_in_error_body v
  · intro user t hsel hchk hgen
    have hr := respond_login_verified d req user hsel hchk
    rw [hgen] at hr
    exact hr
  · intro b v hb hv
    cases hsel : d.SelectUserByUsername req.Username with
    | error e =>
      rw [(loginRejected_of_lookup_error d req e hsel).1] at hb
      simp [Response.unauthorized] at hb
    | ok user =>
      cases hchk : (checkPassword d user.Password req.Password).2 with
      | some e =>
        rw [(loginRejected_of_check_error d req user e hsel hchk).1] at hb
        simp [Response.unauthorized] at hb
      | none =>
        refine ⟨user, rfl, hchk, ?_⟩
        have hr := respond_login_verified d req user hsel hchk
        cases hgen : d.GenJWT user.ID user.UserName (loginExpiresAt d) with
        | error err =>
          rw [hgen] at hr
          rw [hr] at hb
          simp only [Option.some.injEq] at hb
          subst hb
          exact absurd hv (token_not_in_error_body v)
        | ok t =>
          rw [hgen] at hr
          rw [hr] at hb
          simp only [Option.some.injEq] at hb
          subst hb
          simp only [List.mem_singleton, Prod.mk.injEq, true_and] at hv
          rw [hv]

/-- Witness for C8: with a signing operation that fails, the valid login of
`alice` is answered 500 with the error body; with one that succeeds, 200 with
the token it returned. -/
theorem login_signing_failure_witness :
    respond (login demoDepsNoKey (some demoLogin)) =
      ⟨false, some 500, some [(lit "error", lit "token generation failed")]⟩ ∧
    respond (login demoDeps (some demoLogin)) =
      ⟨false, some 200, some [(lit "token", lit "jwt.123e4567-e89b-12d3-a456-426614174000")]⟩ :=
  ⟨((login_signing_failure demoDepsNoKey demoLogin).1 demoUser (errorsNew (lit "no key"))
      rfl (by decide) rfl).1,
   (login_signing_failure demoDeps demoLogin).2.1 demoUser
      (lit "jwt.123e4567-e89b-12d3-a456-426614174000") rfl (by decide) rfl⟩

/-- C9: for every bound login request, a failed username lookup and a failed
`checkPassword` (whatever its error: a bcrypt mismatch or malformed-hash
error, an empty stored hash, an empty password) all end the same way: the
response is the bare 401 abort and `GenJWT` is never called. -/
theorem login_failures_uniform (d : Deps) (req : loginReq) :
    (∀ e, d.SelectUserByUsername req.Username = .error e → LoginRejected d req) ∧
    (∀ user e, d.SelectUserByUsername req.Username = .ok user →
      (checkPassword d user.Password req.Password).2 = some e → LoginRejected d req) ∧
    (∀ user, d.SelectUserByUsername req.Username = .ok user →
      user.Password = [] ∨ req.Password = [] → LoginRejected d req) ∧
    (∀ user e, d.SelectUserByUsername req.Username = .ok user →
      d.CompareHashAndPassword user.Password (req.Password ++ d.Salt) = some e →
      LoginRejected d req) := by
  refine ⟨fun e h => loginRejected_of_lookup_error d req e h,
    fun user e hs hc => loginRejected_of_check_error d req user e hs hc, ?_, ?_⟩
  · intro user hsel hempty
    refine loginRejected_of_check_error d req user EmptyInput hsel ?_
    rw [checkPassword_of_empty d _ _ hempty]
  · intro user e hsel hcmp
    by_cases hempty : user.Password = [] ∨ req.Password = []
    · refine loginRejected_of_check_error d req user EmptyInput hsel ?_
      rw [checkPassword_of_empty d _ _ hempty]
    · refine loginRejected_of_check_error d req user e hsel ?_
      have hh : user.Password ≠ [] := fun h => hempty (Or.inl h)
      have hp : req.Password ≠ [] := fun h => hempty (Or.inr h)
      rw [checkPassword_of_nonempty d _ _ hh hp]
      exact hcmp

/-- Witness for C9: an unknown user and a wrong password for a known user are
both rejected as unauthorized. -/
theorem login_failures_uniform_witness :
    LoginRejected demoDeps ⟨lit "bob", lit "secret"⟩ ∧
    LoginRejected demoDeps ⟨lit "alice", lit "wrong"⟩ :=
  ⟨(login_failures_uniform demoDeps ⟨lit "bob", lit "secret"⟩).1
      (errorsNew (lit "not found")) rfl,
   (login_failures_uniform demoDeps ⟨lit "alice", lit "wrong"⟩).2.2.2 demoUser
      (errorsNew (lit "mismatch")) rfl (by decide)⟩

/-! ## `register` -/

theorem hexVal_hex : ∀ k, k < 16 → hexVal (hex k) = k := by decide

theorem unescapeHead_escapeRune (c : Char) (r : GoString) :
    unescapeHead (escapeRune c ++ r) = some (c, r) := by
  unfold escapeRune
  split_ifs with h1 h2 h3 h4 h5 h6 h7 h8 h9
  · have : c ≠ '\\' := by
      rintro rfl
      simp [htmlSafeSet] at h2
    simp [unescapeHead, this]
  · rcases h3 with rfl | rfl <;> simp [unescapeHead]
  · subst h4; simp [unescapeHead]
  · subst h5; simp [unescapeHead]
  · subst h6; simp [unescapeHead]
  · subst h7; simp [unescapeHead]
  · subst h8; simp [unescapeHead]
  · have hd : c.toNat / 16 < 16 := by omega
    have hm : c.toNat % 16 < 16 := by omega
    simp only [unescapeHead, List.cons_append, List.nil_append, ne_eq, not_true_eq_false,
      if_false, if_true, hexVal_hex _ hd, hexVal_hex _ hm, Nat.div_add_mod', Char.ofNat_toNat]
  · rcases h9 with rfl | rfl <;> simp [unescapeHead] <;> decide
  · have : c ≠ '\\' := by
      rintro rfl
      simp at h1
    simp [unescapeHead, this]

theorem flatMap_escapeRune_injective :
    ∀ s t : GoString, s.flatMap escapeRune = t.flatMap escapeRune → s = t
  | [], [], _ => rfl
  | [], b :: t, h => by
    have := congrArg unescapeHead h
    rw [List.flatMap_cons, unescapeHead_escapeRune] at this
    simp [unescapeHead] at this
  | a :: s, [], h => by
    have := congrArg unescapeHead h
    rw [List.flatMap_cons, unescapeHead_escapeRune] at this
    simp [unescapeHead] at this
  | a :: s, b :: t, h => by
    have := congrArg unescapeHead h
    rw [List.flatMap_cons, List.flatMap_cons, unescapeHead_escapeRune,
      unescapeHead_escapeRune] at this
    simp only [Option.some.injEq, Prod.mk.injEq] at this
    rw [this.1, flatMap_escapeRune_injective s t this.2]

theorem appendString_injective (s t : GoString) (h : appendString s = appendString t) :
    s = t := by
  unfold appendString at h
  exact flatMap_escapeRune_injective s t
    (List.append_cancel_right (List.cons.inj h).2)

theorem flatMap_escapeRune_of_plain (s : GoString) (h : ∀ c ∈ s, escapeRune c = [c]) :
    s.flatMap escapeRune = s := by
  induction s with
  | nil => rfl
  | cons a s ih =>
    rw [List.flatMap_cons, h a (List.mem_cons_self _ _),
      ih (fun c hc => h c (List.mem_cons_of_mem _ hc))]
    rfl

theorem registerInfoMsg_split (req : signUpReq) :
    ∃ pre post : GoString, ∀ p,
      registerInfoMsg { req with Password := p } =
        pre ++ (lit "\"password\":" ++ appendString p) ++ post := by
  refine ⟨lit "Info: user req" ++ lit "\x7b\"username\":" ++ appendString req.Username ++ [','],
    lit ",\"gender\":" ++ appendString req.Gender ++
    lit ",\"age\":" ++ formatInt req.Age ++
    lit ",\"email\":" ++ appendString req.Email ++
    lit ",\"phone\":" ++ appendString req.Phone ++
    lit ",\"address\":" ++ appendString req.Address ++ lit "\x7d", fun p => ?_⟩
  have hl : lit ",\"password\":" = [','] ++ lit "\"password\":" := rfl
  simp only [registerInfoMsg, Marshal, hl, List.append_assoc]

/-- C10, as stated, fails: for the bound request with password `<` the Info
line is logged, and the password does not occur in it verbatim: JSON encoding
wrote it as `\u003c`. -/
theorem register_password_not_verbatim :
    (∃ rest, register demoDeps (some demoSignUpLt) =
      .Log .Info (registerInfoMsg demoSignUpLt) [] :: rest) ∧
    demoSignUpLt.Password = lit "<" ∧
    registerInfoMsg demoSignUpLt =
      lit "Info: user req\x7b\"username\":\"alice\",\"password\":\"\\u003c\",\"gender\":\"f\",\"age\":30,\"email\":\"a@example.com\",\"phone\":\"555\",\"address\":\"\"\x7d" ∧
    ¬ demoSignUpLt.Password <:+: registerInfoMsg demoSignUpLt := by
  refine ⟨⟨_, rfl⟩, rfl, by decide, ?_⟩
  have hm : registerInfoMsg demoSignUpLt =
      lit "Info: user req\x7b\"username\":\"alice\",\"password\":\"\\u003c\",\"gender\":\"f\",\"age\":30,\"email\":\"a@example.com\",\"phone\":\"555\",\"address\":\"\"\x7d" := by
    decide
  rw [hm]
  intro hin
  have hmem : '<' ∈ lit "Info: user req\x7b\"username\":\"alice\",\"password\":\"\\u003c\",\"gender\":\"f\",\"age\":30,\"email\":\"a@example.com\",\"phone\":\"555\",\"address\":\"\"\x7d" :=
    hin.subset (List.mem_singleton.mpr rfl)
  exact absurd hmem (by decide)

/-- C10, amended: for every bound registration request and whatever
`InsertUser` returns, the first effect of `register` is the Info line
`"Info: user req" ++ json.Marshal(req)`, logged before the `InsertUser`
call; the line contains the `password` field with the JSON-escaped password,
and the password verbatim when none of its characters is escaped; two
requests that differ only in their password produce different lines. -/
theorem register_logs_request (d : Deps) (req : signUpReq) :
    (∃ rest, register d (some req) =
      .Log .Info (registerInfoMsg req) [] :: .InsertUser (userOfReq req) :: rest) ∧
    (lit "\"password\":" ++ appendString req.Password) <:+: registerInfoMsg req ∧
    ((∀ c ∈ req.Password, escapeRune c = [c]) → req.Password <:+: registerInfoMsg req) ∧
    (∀ p, p ≠ req.Password →
      registerInfoMsg { req with Password := p } ≠ registerInfoMsg req) := by
  obtain ⟨pre, post, hsplit⟩ := registerInfoMsg_split req
  have hreq : registerInfoMsg req =
      pre ++ (lit "\"password\":" ++ appendString req.Password) ++ post := hsplit req.Password
  refine ⟨?_, ?_, ?_, ?_⟩
  · unfold register
    simp only []
    cases d.InsertUser (userOfReq req) <;> exact ⟨_, rfl⟩
  · rw [hreq]
    exact ⟨pre, post, rfl⟩
  · intro hplain
    rw [hreq, appendString, flatMap_escapeRune_of_plain _ hplain]
    refine ⟨pre ++ lit "\"password\":" ++ ['"'], ['"'] ++ post, ?_⟩
    simp only [List.append_assoc, List.cons_append, List.nil_append]
  · intro p hp heq
    rw [hsplit p, hreq] at heq
    have h1 := List.append_cancel_left (List.append_cancel_left (List.append_cancel_right heq))
    exact hp (appendString_injective _ _ h1)

/-- Witness for C10 (amended): with a store that rejects the insert, the Info
line is still logged first; the password `secret` is in it verbatim, and the
password `secreT` gives another line. -/
theorem register_logs_request_witness :
    (∃ rest, register demoDepsNoInsert (some demoSignUp) =
      .Log .Info (registerInfoMsg demoSignUp) [] ::
        .InsertUser (userOfReq demoSignUp) :: rest) ∧
    demoSignUp.Password <:+: registerInfoMsg demoSignUp ∧
    registerInfoMsg { demoSignUp with Password := lit "secreT" } ≠ registerInfoMsg demoSignUp :=
  ⟨(register_logs_request demoDepsNoInsert demoSignUp).1,
   (register_logs_request demoDeps demoSignUp).2.2.1 (by decide),
   (register_logs_request demoDeps demoSignUp).2.2.2 (lit "secreT") (by decide)⟩

end LookAround
